import Mathlib

/-!
Shallow embedding of the FastAccelStepper core sources
`src/PoorManFloat.cpp` and `src/RampGenerator.cpp`.

`pmf_logarithmic` (a 16-bit two's-complement quantity in C) is embedded as
an `Int` produced by `toInt16`; unsigned C integers (`uint8_t`/`uint16_t`/
`uint32_t`) are embedded as `Nat` with explicit `% 2^w` where the C code
can wrap.  Bit-mask guards of the C code, e.g. `(x & 0xf000) != 0`, are
rendered as the equivalent range comparisons (`0x1000 ≤ x`) valid on the
declared C domain of the argument; each such rendering is noted next to
the definition.  The two 256-entry correction tables are kept twice: as a
`List Nat` literal that mirrors the C array text, and packed into a single
`Nat` (8 bits per entry) for fast kernel evaluation; `logTable_eq_list`
and `powTable_eq_list` prove the two agree.
-/

/-- The C array `log2_minus_x_plus_one_shifted_by_1[256]` as a list literal
(`PoorManFloat.cpp`). -/
def log2_minus_x_plus_one_shifted_by_1 : List Nat := [
  0, 1, 2, 3, 3, 4, 5, 6, 7, 8, 8, 9, 10, 11, 11, 12,
  13, 13, 14, 15, 16, 16, 17, 18, 18, 19, 19, 20, 21, 21, 22, 22,
  23, 24, 24, 25, 25, 26, 26, 27, 27, 28, 28, 29, 29, 30, 30, 31,
  31, 31, 32, 32, 33, 33, 33, 34, 34, 34, 35, 35, 36, 36, 36, 37,
  37, 37, 37, 38, 38, 38, 39, 39, 39, 39, 40, 40, 40, 40, 40, 41,
  41, 41, 41, 41, 42, 42, 42, 42, 42, 42, 43, 43, 43, 43, 43, 43,
  43, 43, 43, 43, 44, 44, 44, 44, 44, 44, 44, 44, 44, 44, 44, 44,
  44, 44, 44, 44, 44, 44, 44, 44, 44, 44, 44, 44, 44, 44, 44, 44,
  44, 43, 43, 43, 43, 43, 43, 43, 43, 43, 42, 42, 42, 42, 42, 42,
  42, 41, 41, 41, 41, 41, 41, 40, 40, 40, 40, 40, 39, 39, 39, 39,
  39, 38, 38, 38, 38, 37, 37, 37, 37, 36, 36, 36, 36, 35, 35, 35,
  35, 34, 34, 34, 33, 33, 33, 32, 32, 32, 31, 31, 31, 30, 30, 30,
  29, 29, 29, 28, 28, 28, 27, 27, 26, 26, 26, 25, 25, 24, 24, 24,
  23, 23, 22, 22, 22, 21, 21, 20, 20, 19, 19, 19, 18, 18, 17, 17,
  16, 16, 15, 15, 14, 14, 14, 13, 13, 12, 12, 11, 11, 10, 10, 9,
  9, 8, 8, 7, 6, 6, 5, 5, 4, 4, 3, 3, 2, 2, 1, 1]

/-- The C array `x_minus_pow2_of_x_minus_one_shifted_by_1[256]` as a list
literal (`PoorManFloat.cpp`). -/
def x_minus_pow2_of_x_minus_one_shifted_by_1 : List Nat := [
  0, 1, 1, 2, 2, 3, 4, 4, 5, 5, 6, 7, 7, 8, 8, 9,
  9, 10, 10, 11, 12, 12, 13, 13, 14, 14, 15, 15, 16, 16, 17, 17,
  18, 18, 19, 19, 20, 20, 21, 21, 21, 22, 22, 23, 23, 24, 24, 25,
  25, 25, 26, 26, 27, 27, 27, 28, 28, 29, 29, 29, 30, 30, 30, 31,
  31, 31, 32, 32, 32, 33, 33, 33, 34, 34, 34, 35, 35, 35, 36, 36,
  36, 36, 37, 37, 37, 38, 38, 38, 38, 38, 39, 39, 39, 39, 40, 40,
  40, 40, 40, 41, 41, 41, 41, 41, 41, 42, 42, 42, 42, 42, 42, 42,
  43, 43, 43, 43, 43, 43, 43, 43, 43, 44, 44, 44, 44, 44, 44, 44,
  44, 44, 44, 44, 44, 44, 44, 44, 44, 44, 44, 44, 44, 44, 44, 44,
  44, 44, 44, 44, 44, 44, 43, 43, 43, 43, 43, 43, 43, 43, 43, 43,
  42, 42, 42, 42, 42, 42, 41, 41, 41, 41, 41, 41, 40, 40, 40, 40,
  39, 39, 39, 39, 38, 38, 38, 38, 37, 37, 37, 37, 36, 36, 36, 35,
  35, 35, 34, 34, 34, 33, 33, 32, 32, 32, 31, 31, 30, 30, 30, 29,
  29, 28, 28, 27, 27, 27, 26, 26, 25, 25, 24, 24, 23, 23, 22, 22,
  21, 20, 20, 19, 19, 18, 18, 17, 16, 16, 15, 15, 14, 13, 13, 12,
  11, 11, 10, 9, 9, 8, 7, 7, 6, 5, 5, 4, 3, 2, 2, 1]

/-- The `log2_minus_x_plus_one_shifted_by_1` packed 8 bits per entry
(entry `i` at bits `8*i .. 8*i+7`), for fast kernel lookups. -/
def log2TableN : Nat := 126735290969467784731682077301533411163927168251167994753733844112358752556625951311605864463386397142023243281902349847501319068108381767399040434083292311121998066536081349729393324047236031528470017385452217929019943807831061449766209411258163477063126995883184021017944468507690261435361747178281318961565861492796663232950019663419502637748647769911056459447940536187517446818142736193401903779414085587159916466264513179555660485258949508024313036226119532384412449397890470840709398886243702699152399279845585877501606814293230486063046449728672387501024152277295010812668162128002292400235867157552284434688

/-- The `x_minus_pow2_of_x_minus_one_shifted_by_1` packed 8 bits per entry. -/
def powTableN : Nat := 127228416902252999718458418949735596031630300898745115383063688089429134845759151207025982536410215051527895172507363373079859659017766759085377885139566430261261909251353118147892176103894222829453757921295893693958647446255447777038564251589051343355017998329248907107908198432536442134642802178049166363384560429191601484725876031883636135158315600725881827448460191883655076701602328601401971204436171316028690494766397069280446573190456134500261509746691370626902534517878620961627917599212215590196415022803110983329523189645539562716369341946368265080073187591372009909083062218562959632599461741754065158400

/-- Lookup `log2_minus_x_plus_one_shifted_by_1[i]` (via the packed number). -/
def logTable (i : Nat) : Nat := (log2TableN >>> (8 * i)) &&& 255

/-- Lookup `x_minus_pow2_of_x_minus_one_shifted_by_1[i]` (via the packed number). -/
def powTable (i : Nat) : Nat := (powTableN >>> (8 * i)) &&& 255

/-- Reinterpret a 16-bit pattern as the C `int16_t` it denotes
(the `return` of `pmfl_from` casts the `uint16_t` accumulator to
`pmf_logarithmic`). -/
def toInt16 (p : Nat) : Int := if p < 0x8000 then (p : Int) else (p : Int) - 0x10000

/-- Truncate an `int` value to `int16_t`, two's complement (the implicit
conversion C performs when an `int` expression is returned as
`pmf_logarithmic`). -/
def wrap16 (z : Int) : Int := (z + 0x8000) % 0x10000 - 0x8000

/-- Body of `pmfl_from(uint8_t)` after the branch tree: `res` holds
`0000_0eee_mmmm_mmmm`; index the log table with the low byte, shift left
by one and add the correction (`PoorManFloat.cpp`, `pmfl_from(uint8_t)`). -/
def pmfl_from8res (res : Nat) : Nat :=
  let index := res % 256
  let res := (res <<< 1) % 0x10000
  (res + logTable index) % 0x10000

/-- The `uint16_t` computation of `pmfl_from(uint8_t)`.  The C mask guards
are rendered as comparisons, valid on the `uint8_t` domain `x < 256`:
`(x & 0xf0) == 0` is `x < 0x10`, `(x & 0x0c) == 0` (below that) is `x < 4`,
`(x & 0x02) == 0` is `x < 2`, `(x & 0x08) == 0` is `x < 8`,
`(x & 0xc0) == 0` is `x < 0x40`, `(x & 0x20) == 0` is `x < 0x20`,
`(x & 0x80) == 0` is `x < 0x80`.  The C shifts `x <<= s` act on a
`uint8_t`, hence the `% 256`. -/
def pmfl_from8P (x : Nat) : Nat :=
  if x < 0x10 then
    if x < 4 then
      if x < 2 then
        if x = 0 then 0x8000
        else pmfl_from8res 0x0000
      else pmfl_from8res (((x <<< 7) % 256) ||| 0x0100)
    else
      if x < 8 then pmfl_from8res (((x <<< 6) % 256) ||| 0x0200)
      else pmfl_from8res (((x <<< 5) % 256) ||| 0x0300)
  else
    if x < 0x40 then
      if x < 0x20 then pmfl_from8res (((x <<< 4) % 256) ||| 0x0400)
      else pmfl_from8res (((x <<< 3) % 256) ||| 0x0500)
    else
      if x < 0x80 then pmfl_from8res (((x <<< 2) % 256) ||| 0x0600)
      else pmfl_from8res (((x <<< 1) % 256) ||| 0x0700)

/-- The `pmfl_from(uint8_t)`: the returned `pmf_logarithmic` (`int16_t`) value;
for `x == 0` this is the sentinel `(int16_t)0x8000 = -32768`. -/
def pmfl_from8 (x : Nat) : Int := toInt16 (pmfl_from8P x)

/-- Tail of `pmfl_from(uint16_t)` after the branch tree normalised `x` into
`[0x200, 0x400)` and chose `exponent`: `index = (uint8_t)(x >> 1)`,
`x += table[index]; x -= 0x200; x += exponent << 9` — all on `uint16_t`. -/
def pmfl_from16tail (x exponent : Nat) : Nat :=
  let index := (x >>> 1) % 256
  let x := (x + logTable index) % 0x10000
  let x := (x + 0x10000 - 0x200) % 0x10000
  (x + (exponent <<< 9)) % 0x10000

/-- The `uint16_t` computation of `pmfl_from(uint16_t)`.  Mask guards
rendered as comparisons on the `uint16_t` domain `x < 0x10000`:
`(x & 0xff00) == 0` is `x < 0x100`, `(x & 0xf000) != 0` is `0x1000 ≤ x`,
`(x & 0xc000) != 0` is `0x4000 ≤ x`, `(x & 0x8000) != 0` is `0x8000 ≤ x`,
`(x & 0x2000) != 0` (within `[0x1000,0x4000)`) is `0x2000 ≤ x`,
`(x & 0x0c00) != 0` (within `[0x100,0x1000)`) is `0x400 ≤ x`,
`(x & 0x0800) != 0` is `0x800 ≤ x`, `(x & 0x0200) != 0` is `0x200 ≤ x`. -/
def pmfl_from16P (x : Nat) : Nat :=
  if x < 0x100 then pmfl_from8P (x % 256)
  else if 0x1000 ≤ x then
    if 0x4000 ≤ x then
      if 0x8000 ≤ x then pmfl_from16tail (x >>> 6) 15
      else pmfl_from16tail (x >>> 5) 14
    else
      if 0x2000 ≤ x then pmfl_from16tail (x >>> 4) 13
      else pmfl_from16tail (x >>> 3) 12
  else
    if 0x400 ≤ x then
      if 0x800 ≤ x then pmfl_from16tail (x >>> 2) 11
      else pmfl_from16tail (x >>> 1) 10
    else
      if 0x200 ≤ x then pmfl_from16tail x 9
      else pmfl_from16tail ((x <<< 1) % 0x10000) 8

/-- The `pmfl_from(uint16_t)`: the returned `pmf_logarithmic` value. -/
def pmfl_from16 (x : Nat) : Int := toInt16 (pmfl_from16P x)

/-- The `pmfl_from(uint32_t)`.  Mask guards rendered as comparisons on the
`uint32_t` domain `x < 2^32`: `(x & 0xffff0000) == 0` is `x < 0x10000`,
`(x & 0xff000000) == 0` is `x < 0x1000000`.  The `uint16_t` casts of
`x`, `x >> 8` and `x >> 16` are the `% 0x10000`; the additions
`+ 0x1000` / `+ 0x2000` happen in `int` and are truncated to
`pmf_logarithmic` on return, hence `wrap16`. -/
def pmfl_from32 (x : Nat) : Int :=
  if x < 0x10000 then pmfl_from16 (x % 0x10000)
  else if x < 0x1000000 then wrap16 (pmfl_from16 ((x >>> 8) % 0x10000) + 0x1000)
  else wrap16 (pmfl_from16 ((x >>> 16) % 0x10000) + 0x2000)

/-- Body of `pmfl_to_u16` after the two saturation guards, on the bit
pattern `p = x` (`0 ≤ x < 0x2000`): `exponent = (uint16_t)x >> 9`,
`x &= 0x1ff` (rendered `% 0x200`), table lookup, `x += 0x200; x -= offset`
(no underflow: the table entries are at most 44), then the final shift;
`x <<= exponent - 9` acts on `int16_t` and is returned as `uint16_t`,
hence `% 0x10000`. -/
def pmfl_to_u16body (p : Nat) : Nat :=
  let exponent := p >>> 9
  let frac := p % 0x200
  let index := frac >>> 1
  let y := frac + 0x200 - powTable index
  if 9 < exponent then (y <<< (exponent - 9)) % 0x10000
  else if exponent < 9 then (y + 1) >>> (9 - exponent)
  else y

/-- The `pmfl_to_u16(pmf_logarithmic x)`: `x < 0` saturates to `0`,
`x >= 0x2000` saturates to `0xffff`. -/
def pmfl_to_u16 (x : Int) : Nat :=
  if x < 0 then 0
  else if 0x2000 ≤ x then 0xffff
  else pmfl_to_u16body x.toNat

/-- The `pmfl_to_u16` on the 16-bit pattern of its argument: `x < 0` is
`0x8000 ≤ p`, `x >= 0x2000` is `0x2000 ≤ p < 0x8000`.
`pmfl_to_u16_pattern` proves this agrees with `pmfl_to_u16 ∘ toInt16`. -/
def pmfl_to_u16P (p : Nat) : Nat :=
  if 0x8000 ≤ p then 0
  else if 0x2000 ≤ p then 0xffff
  else pmfl_to_u16body p

/-- The `pmfl_shl`: `x + ((int16_t)n << 9)` truncated to `pmf_logarithmic`. -/
def pmfl_shl (x : Int) (n : Nat) : Int := wrap16 (x + ((n <<< 9 : Nat) : Int))

/-- The `pmfl_shr`: `x - ((int16_t)n << 9)` truncated to `pmf_logarithmic`. -/
def pmfl_shr (x : Int) (n : Nat) : Int := wrap16 (x - ((n <<< 9 : Nat) : Int))

/-- Body of `pmfl_to_u32` after the two saturation guards, on the bit
pattern `p` (`0 ≤ p < 0x4000`).  For `exponent >= 0x10` the C code calls
`pmfl_shr(x, shift)` — here `p - (shift <<< 9)`, which cannot underflow
since `p ≥ exponent * 0x200` — feeds the result to `pmfl_to_u16` (the
pattern version, the value being non-negative and below `0x2000` after
the shift is irrelevant: both guards are re-tested), and left-shifts the
`uint32_t` result, hence `% 2^32`. -/
def pmfl_to_u32body (p : Nat) : Nat :=
  let exponent := p >>> 9
  if exponent < 0x10 then pmfl_to_u16P p
  else
    let shift := exponent - 0x0f
    (pmfl_to_u16P (p - (shift <<< 9)) <<< shift) % 0x100000000

/-- The `pmfl_to_u32(pmf_logarithmic x)`: `x < 0` saturates to `0`,
`x >= 0x4000` saturates to `0xffffffff`. -/
def pmfl_to_u32 (x : Int) : Nat :=
  if x < 0 then 0
  else if 0x4000 ≤ x then 0xffffffff
  else pmfl_to_u32body x.toNat

/-- The `pmfl_to_u32` on the 16-bit pattern of its argument
(cf. `pmfl_to_u16P`). -/
def pmfl_to_u32P (p : Nat) : Nat :=
  if 0x8000 ≤ p then 0
  else if 0x4000 ≤ p then 0xffffffff
  else pmfl_to_u32body p

/-- The `pmfl_multiply(x, y) { return x + y; }` — the `int` sum truncated to
`pmf_logarithmic`. -/
def pmfl_multiply (x y : Int) : Int := wrap16 (x + y)

/-- The `pmfl_reciprocal(x) { return -x; }` truncated to `pmf_logarithmic`. -/
def pmfl_reciprocal (x : Int) : Int := wrap16 (-x)

/-- The `pmfl_square(x)`: saturates to `0x7fff` for `x >= 0x4000`, to
`(int16_t)0x8001 = -32767` for `x <= -0x4000`, otherwise `x + x`
(which then cannot overflow `int16_t`; `wrap16` renders the return
conversion). -/
def pmfl_square (x : Int) : Int :=
  if 0x4000 ≤ x then 0x7fff
  else if x ≤ -0x4000 then toInt16 0x8001
  else wrap16 (x + x)

/-- The `pmfl_rsquare(x) = pmfl_reciprocal(pmfl_square(x))`. -/
def pmfl_rsquare (x : Int) : Int := pmfl_reciprocal (pmfl_square x)

/-- The `pmfl_rsqrt(x) { return (-x) / 2; }` — C `/` on `int` truncates
toward zero, as does `Int.tdiv`; the result fits `int16_t`. -/
def pmfl_rsqrt (x : Int) : Int := Int.tdiv (-x) 2

/-- The `pmfl_divide(x, y) { return x - y; }` truncated to `pmf_logarithmic`. -/
def pmfl_divide (x y : Int) : Int := wrap16 (x - y)

/-- One unit in the last place of the 8-bit mantissa window of `x`: the
window holds 9 mantissa bits (hidden bit included), so for
`2^k ≤ x < 2^(k+1)` an ulp is `2^(k-8)` (and `1` for `x < 0x200`,
where every value is exactly representable). -/
def ulp (x : Nat) : Nat := 2 ^ (Nat.log2 x - 8)

/-- The `allRange f fuel lo n` decides `f` on `lo, lo+1, ..., lo+n-1` by
binary splitting (kernel-friendly recursion depth); complete as long as
`n ≤ 2^fuel`, see `allRange_true`. -/
def allRange (f : Nat → Bool) : Nat → Nat → Nat → Bool
  | _, _, 0 => true
  | 0, lo, _ + 1 => f lo
  | fuel + 1, lo, m + 1 =>
      allRange f fuel lo ((m + 1) / 2) &&
      allRange f fuel (lo + (m + 1) / 2) ((m + 1) - (m + 1) / 2)

/-- Round-trip check for one `x` of octave `j` (`2^j ≤ x < 2^(j+1)`,
`j ≤ 9`): the log pattern stays in `[0, 0x2000]` and both integer
conversions return within `2^(j-8)` (i.e. one ulp) of `x`. -/
def checkSmall (j x : Nat) : Bool :=
  let f := pmfl_from16P x
  decide (f ≤ 0x2000) &&
  decide (Nat.dist (pmfl_to_u16P f) x ≤ 2 ^ (j - 8)) &&
  decide (Nat.dist (pmfl_to_u32P f) x ≤ 2 ^ (j - 8))

/-- Round-trip check for one granule `g ∈ [0x200, 0x400)` of octave
`k ∈ [10, 15]`: every 16-bit `x` in `[g·2^(k-9), (g+1)·2^(k-9))` has log
pattern `pmfl_from16tail g k`, every 32-bit `x` in
`[g·2^(k-1), (g+1)·2^(k-1))` has log pattern `pmfl_from16tail g k + 0x1000`,
and every 32-bit `x` in `[g·2^(k+7), (g+1)·2^(k+7))` has log pattern
`pmfl_from16tail g k + 0x2000`; the bounds here plus the in-granule
distance give one ulp for the 16-bit and 1.5 ulp for the 32-bit round
trips. -/
def checkGran (k g : Nat) : Bool :=
  let f := pmfl_from16tail g k
  decide (f ≤ 0x2000) &&
  decide (Nat.dist (pmfl_to_u16P f) (g <<< (k - 9)) ≤ 2 ^ (k - 9) + 1) &&
  decide (Nat.dist (pmfl_to_u32P f) (g <<< (k - 9)) ≤ 2 ^ (k - 9) + 1) &&
  decide (Nat.dist (pmfl_to_u32P (f + 0x1000)) (g <<< (k - 1)) ≤ 2 ^ k + 1) &&
  decide (Nat.dist (pmfl_to_u32P (f + 0x2000)) (g <<< (k + 7)) ≤ 2 ^ (k + 8) + 1)

/-- The 32-bit round-trip check for one 16-bit `w` of octave `j ∈ {8, 9}`:
covers `x` in `[w·2^8, (w+1)·2^8)` (log pattern `pmfl_from16P w + 0x1000`)
and in `[w·2^16, (w+1)·2^16)` (log pattern `pmfl_from16P w + 0x2000`)
within 1.5 ulp. -/
def checkMid (j w : Nat) : Bool :=
  let f := pmfl_from16P w
  decide (2 * Nat.dist (pmfl_to_u32P (f + 0x1000)) (w <<< 8) + 510 ≤ 3 * 2 ^ j) &&
  decide (2 * Nat.dist (pmfl_to_u32P (f + 0x2000)) (w <<< 16) + 131070 ≤ 3 * 2 ^ (j + 8))

/-! ### Ramp generator (`RampGenerator.cpp`)

`RampGenerator.cpp` is embedded as a state-passing model.  The member
structures `_parameters`, `_ro`, `_rw` and their small helper methods are
declared in headers that are not part of the embedded core; those helpers
are modelled from the spec (each such definition says so in its doc
comment).  The method bodies of `RampGenerator` itself are translated
from `RampGenerator.cpp`. -/

/-- Status code `MOVE_OK` (spec: "Status codes form a small closed set:
OK, invalid-acceleration, invalid-config/not-ready"). -/
def MOVE_OK : Int := 0

/-- Modelled from the spec: the invalid-config/not-ready status returned
by `checkValidConfig` when acceleration has not been configured. -/
def MOVE_ERR_ACCELERATION_IS_UNDEFINED : Int := -3

/-- Modelled from the spec: ramp phase/direction constants — "current
ramp phase (idle / accelerating / cruising / decelerating) combined with
direction (count-up/count-down) as a small bit-field".  The exact bit
values are not visible in the embedded sources; they are chosen as
distinct bits, which is all the code relies on. -/
def RAMP_STATE_IDLE : Nat := 0

/-- Modelled from the spec: cruising phase (no accelerating/decelerating
flag set). -/
def RAMP_STATE_COAST : Nat := 1

/-- Modelled from the spec: flag set while accelerating. -/
def RAMP_STATE_ACCELERATING_FLAG : Nat := 2

/-- Modelled from the spec: flag set while decelerating. -/
def RAMP_STATE_DECELERATING_FLAG : Nat := 4

/-- Modelled from the spec: direction bit "count up". -/
def RAMP_DIRECTION_COUNT_UP : Nat := 32

/-- Modelled from the spec: direction bit "count down". -/
def RAMP_DIRECTION_COUNT_DOWN : Nat := 64

/-- Mask of the two direction bits. -/
def RAMP_DIRECTION_MASK : Nat := RAMP_DIRECTION_COUNT_UP ||| RAMP_DIRECTION_COUNT_DOWN

/-- The application-writable parameter record (spec §3 `RampParameters`):
raw inputs plus the `any_change` / `recalc_ramp_steps` dirty flags and the
`apply` publication flag. -/
structure RampParameters where
  target_pos : Int
  acceleration : Nat
  keep_running : Bool
  keep_running_count_up : Bool
  any_change : Bool
  recalc_ramp_steps : Bool
  apply : Bool
deriving DecidableEq, Repr

/-- Modelled from the spec: parameter reset at `init()` — "all state is
in-memory and reconstructed from scratch at initialization". -/
def RampParameters.init : RampParameters :=
  { target_pos := 0, acceleration := 0, keep_running := false,
    keep_running_count_up := true, any_change := false,
    recalc_ramp_steps := false, apply := false }

/-- Modelled from the spec: `setAcceleration` on the parameter record
"stores it and marks the parameter set dirty". -/
def RampParameters.setAcceleration (p : RampParameters) (accel : Int) : RampParameters :=
  { p with acceleration := accel.toNat, any_change := true, recalc_ramp_steps := true }

/-- Modelled from the spec: `setTargetPosition` mutates the field and
marks the set dirty. -/
def RampParameters.setTargetPosition (p : RampParameters) (pos : Int) : RampParameters :=
  { p with target_pos := pos, any_change := true }

/-- Modelled from the spec: `applyParameters()` "recomputes any derived
fields … then sets the `apply` flag" (the derived fields live in the
read-side `RampConfig.cache`). -/
def RampParameters.applyParameters (p : RampParameters) : RampParameters :=
  { p with apply := true }

/-- Modelled from the spec: `checkValidConfig()` "validates the parameter
set as a whole (e.g., acceleration must be configured before motion
starts) and returns a status code rather than throwing". -/
def RampParameters.checkValidConfig (p : RampParameters) : Int :=
  if p.acceleration = 0 then MOVE_ERR_ACCELERATION_IS_UNDEFINED else MOVE_OK

/-- The interrupt-visible configuration `_ro.config`: the applied
parameter snapshot plus derived/cached values.  The cache contents are
modelled from the spec ("derived/cached fields recalculated when any
input changes") as an opaque-to-the-claims function of the applied
acceleration. -/
structure RampConfig where
  parameters : RampParameters
  cache : Nat
deriving DecidableEq, Repr

/-- Modelled from the spec: `_ro.config.update()` recomputes the derived
cache from the just-copied parameter snapshot; it does not touch the
snapshot itself. -/
def RampConfig.update (c : RampConfig) : RampConfig :=
  { c with cache := c.parameters.acceleration }

/-- The read-side state `_ro` (spec §3 `RampReadState`): applied
configuration, `force_stop`, and the two immediate-stop conditions. -/
structure RampReadState where
  config : RampConfig
  force_stop : Bool
  immediate_stop_initiated : Bool
  immediate_stop_incomplete : Bool
deriving DecidableEq, Repr

/-- Modelled from the spec: read-state reset at `init()`. -/
def RampReadState.init : RampReadState :=
  { config := { parameters := RampParameters.init, cache := 0 },
    force_stop := false, immediate_stop_initiated := false,
    immediate_stop_incomplete := false }

/-- Modelled from the spec: query of the "immediate stop initiated"
condition. -/
def RampReadState.isImmediateStopInitiated (ro : RampReadState) : Bool :=
  ro.immediate_stop_initiated

/-- Modelled from the spec: query of the "immediate stop incomplete"
condition. -/
def RampReadState.isImmediateStopIncomplete (ro : RampReadState) : Bool :=
  ro.immediate_stop_incomplete

/-- Modelled from the spec: clear both immediate-stop conditions. -/
def RampReadState.clearImmediateStop (ro : RampReadState) : RampReadState :=
  { ro with immediate_stop_initiated := false, immediate_stop_incomplete := false }

/-- The write-side state `_rw` (spec §3 `RampWriteState`): the rolling
progress of the in-flight ramp. -/
structure RampWriteState where
  ramp_state : Nat
  performed_ramp_up_steps : Nat
  pause_ticks_left : Nat
  curr_ticks : Nat
deriving DecidableEq, Repr

/-- Modelled from the spec: write-state reset at `init()` (idle, no
progress). -/
def RampWriteState.init : RampWriteState :=
  { ramp_state := RAMP_STATE_IDLE, performed_ramp_up_steps := 0,
    pause_ticks_left := 0, curr_ticks := 0 }

/-- Modelled from the spec: `stopRamp()` on the write state — back to
idle with no ramp progress. -/
def RampWriteState.stopRamp (_rw : RampWriteState) : RampWriteState :=
  RampWriteState.init

/-- Modelled from the spec: `_rw.startRampIfNotRunning()` — "begins
`Accelerating` in the required direction if the queue is not already
running; if already running, the in-flight state continues uninterrupted
(no restart)". -/
def RampWriteState.startRampIfNotRunning (rw : RampWriteState) : RampWriteState :=
  if rw.ramp_state = RAMP_STATE_IDLE then
    { rw with ramp_state := RAMP_STATE_ACCELERATING_FLAG,
              performed_ramp_up_steps := 0, pause_ticks_left := 0 }
  else rw

/-- Modelled from the spec: `_rw.rampState()` accessor. -/
def RampWriteState.rampState (rw : RampWriteState) : Nat := rw.ramp_state

/-- The `struct queue_end_s` (spec §6 `QueueEndState`): the projected position
once all enqueued commands execute. -/
structure queue_end_s where
  pos : Int
deriving DecidableEq, Repr

/-- The `NextCommand` (spec §3): the tick duration handed to the queue and
the write-side state to adopt once the command is accepted.  Only the
fields the embedded code manipulates are modelled. -/
structure NextCommand where
  ticks : Nat
  rw : RampWriteState
deriving DecidableEq, Repr

/-- The `RampGenerator` object: member structures plus the cached
`acceleration` member (`uint32_t`). -/
structure RampGenerator where
  _parameters : RampParameters
  _ro : RampReadState
  _rw : RampWriteState
  acceleration : Nat
deriving DecidableEq, Repr

/-- Modelled from the spec: `isRampGeneratorActive()` — whether the ramp
state machine is out of `Idle`. -/
def RampGenerator.isRampGeneratorActive (g : RampGenerator) : Bool :=
  g._rw.ramp_state ≠ RAMP_STATE_IDLE

/-- The `RampGenerator::init()` (`RampGenerator.cpp`): reset parameters,
read-side and write-side state. -/
def RampGenerator.init : RampGenerator :=
  { _parameters := RampParameters.init, _ro := RampReadState.init,
    _rw := RampWriteState.init, acceleration := 0 }

/-- The `RampGenerator::setAcceleration(int32_t accel)` (`RampGenerator.cpp`):
reject `accel <= 0` with `-1`, otherwise store the value (the `uint32_t`
member and the parameter record) and return `0`. -/
def RampGenerator.setAcceleration (g : RampGenerator) (accel : Int) :
    RampGenerator × Int :=
  if accel ≤ 0 then (g, -1)
  else ({ g with acceleration := accel.toNat,
                 _parameters := g._parameters.setAcceleration accel }, 0)

/-- The `RampGenerator::applySpeedAcceleration()` (`RampGenerator.cpp`). -/
def RampGenerator.applySpeedAcceleration (g : RampGenerator) : RampGenerator :=
  { g with _parameters := g._parameters.applyParameters }

/-- The `RampGenerator::_startMove(int32_t target_pos, bool position_changed)`
(`RampGenerator.cpp`): validate the configuration, store the target,
clear `force_stop` and `keep_running`, publish via `applyParameters`,
and start the ramp only if the position changed. -/
def RampGenerator._startMove (g : RampGenerator) (target_pos : Int)
    (position_changed : Bool) : RampGenerator × Int :=
  let res := g._parameters.checkValidConfig
  if res ≠ MOVE_OK then (g, res)
  else
    let p := ((g._parameters.setTargetPosition target_pos))
    let p := { p with keep_running := false, keep_running_count_up := true }
    let p := p.applyParameters
    let g := { g with _parameters := p, _ro := { g._ro with force_stop := false } }
    let g := if position_changed then { g with _rw := g._rw.startRampIfNotRunning } else g
    (g, MOVE_OK)

/-- The `RampGenerator::moveTo(int32_t position, const queue_end_s*)`
(`RampGenerator.cpp`): compare against the projected end position (the
applied target while actively positioning, the queue end otherwise) and
delegate to `_startMove`; `inject_fill_interrupt` is a test hook with no
state effect. -/
def RampGenerator.moveTo (g : RampGenerator) (position : Int)
    (queue_end : queue_end_s) : RampGenerator × Int :=
  let curr_pos :=
    if g.isRampGeneratorActive ∧ ¬g._ro.config.parameters.keep_running then
      g._ro.config.parameters.target_pos
    else queue_end.pos
  g._startMove position (curr_pos ≠ position)

/-- The `RampGenerator::move(int32_t move, const queue_end_s*)`
(`RampGenerator.cpp`). -/
def RampGenerator.move (g : RampGenerator) (move : Int)
    (queue_end : queue_end_s) : RampGenerator × Int :=
  let curr_pos :=
    if g.isRampGeneratorActive ∧ ¬g._ro.config.parameters.keep_running then
      g._ro.config.parameters.target_pos
    else queue_end.pos
  let new_pos := curr_pos + move
  g._startMove new_pos (curr_pos ≠ new_pos)

/-- The `RampGenerator::advanceTargetPosition(int32_t delta, const queue_end_s*)`
(`RampGenerator.cpp`): only acts when the generator is active and not in
`keep_running` mode. -/
def RampGenerator.advanceTargetPosition (g : RampGenerator) (delta : Int)
    (_queue : queue_end_s) : RampGenerator :=
  if g.isRampGeneratorActive ∧ ¬g._ro.config.parameters.keep_running then
    let new_pos := g._ro.config.parameters.target_pos + delta
    (g._startMove new_pos true).1
  else g

/-- Modelled from the spec: the command computation `_getNextCommand`
(declared elsewhere; it takes `_ro` and `_rw` through `const` pointers,
so it reads but never writes generator state and only fills in the
command).  Its numeric output is outside the embedded core; it is
modelled as handing back the current write state with a zero tick
count. -/
def RampGenerator._getNextCommandCalc (_ro : RampReadState)
    (rw : RampWriteState) (_qe : queue_end_s) : NextCommand :=
  { ticks := 0, rw := rw }

/-- The `RampGenerator::getNextCommand(const queue_end_s*, NextCommand*)`
(`RampGenerator.cpp`): the apply handshake — when `_parameters.apply` is
set, copy the whole parameter record into `_ro.config.parameters`, clear
`apply`/`any_change`/`recalc_ramp_steps` on `_parameters` and recompute
the derived cache — followed by the immediate-stop bookkeeping and the
command computation. -/
def RampGenerator.getNextCommand (g : RampGenerator) (queue_end : queue_end_s) :
    RampGenerator × NextCommand :=
  let g :=
    if g._parameters.apply then
      { g with
        _ro := { g._ro with
                 config := RampConfig.update { g._ro.config with parameters := g._parameters } },
        _parameters := { g._parameters with
                         apply := false
                         any_change := false
                         recalc_ramp_steps := false } }
    else g
  let qe := queue_end
  let ro := g._ro.clearImmediateStop
  if ro.isImmediateStopInitiated then
    ({ g with _ro := ro.clearImmediateStop },
     { ticks := 0, rw := RampWriteState.stopRamp g._rw })
  else
    let (g, ro) :=
      if ro.isImmediateStopIncomplete then
        ({ g with _rw := g._rw.stopRamp }, ro.clearImmediateStop)
      else (g, ro)
    let g := { g with _ro := ro }
    (g, RampGenerator._getNextCommandCalc ro g._rw qe)

/-- The `RampGenerator::stopRamp()` (`RampGenerator.cpp`). -/
def RampGenerator.stopRamp (g : RampGenerator) : RampGenerator :=
  { g with _rw := g._rw.stopRamp }

/-- Convert a `uint32_t` pattern to the `int32_t` it denotes (the C
conversion when `acceleration` is returned as `int32_t`). -/
def toInt32 (p : Nat) : Int :=
  if p % 0x100000000 < 0x80000000 then (p % 0x100000000 : Nat)
  else (p % 0x100000000 : Nat) - 0x100000000

/-- The `RampGenerator::getCurrentAcceleration()` (`RampGenerator.cpp`): a
switch on the ramp state masked with the accelerating/decelerating flags
and the direction bits; `return acceleration` / `return -acceleration`
convert the `uint32_t` member to `int32_t`. -/
def RampGenerator.getCurrentAcceleration (g : RampGenerator) : Int :=
  let masked := g._rw.rampState &&&
    (RAMP_STATE_ACCELERATING_FLAG ||| RAMP_STATE_DECELERATING_FLAG ||| RAMP_DIRECTION_MASK)
  if masked = RAMP_STATE_ACCELERATING_FLAG ||| RAMP_DIRECTION_COUNT_UP ∨
     masked = RAMP_STATE_DECELERATING_FLAG ||| RAMP_DIRECTION_COUNT_DOWN then
    toInt32 g.acceleration
  else if masked = RAMP_STATE_DECELERATING_FLAG ||| RAMP_DIRECTION_COUNT_UP ∨
          masked = RAMP_STATE_ACCELERATING_FLAG ||| RAMP_DIRECTION_COUNT_DOWN then
    toInt32 ((0x100000000 - g.acceleration % 0x100000000) % 0x100000000)
  else 0

/-- A concrete generator state used to instantiate theorems: actively
accelerating count-up toward target position `5`, acceleration `1000`,
with a pending `apply`. -/
def gSampleA : RampGenerator :=
  { _parameters :=
      { target_pos := 5, acceleration := 1000, keep_running := false,
        keep_running_count_up := true, any_change := true,
        recalc_ramp_steps := true, apply := true },
    _ro :=
      { config :=
          { parameters :=
              { target_pos := 5, acceleration := 1000, keep_running := false,
                keep_running_count_up := true, any_change := false,
                recalc_ramp_steps := false, apply := false },
            cache := 1000 },
        force_stop := false, immediate_stop_initiated := false,
        immediate_stop_incomplete := false },
    _rw :=
      { ramp_state := RAMP_STATE_ACCELERATING_FLAG ||| RAMP_DIRECTION_COUNT_UP,
        performed_ramp_up_steps := 7, pause_ticks_left := 0, curr_ticks := 4000 },
    acceleration := 1000 }

/-- A concrete idle generator state with no pending `apply` and
`keep_running` set in the applied configuration. -/
def gSampleB : RampGenerator :=
  { _parameters :=
      { target_pos := 0, acceleration := 50, keep_running := true,
        keep_running_count_up := true, any_change := false,
        recalc_ramp_steps := false, apply := false },
    _ro :=
      { config :=
          { parameters :=
              { target_pos := 0, acceleration := 50, keep_running := true,
                keep_running_count_up := true, any_change := false,
                recalc_ramp_steps := false, apply := false },
            cache := 50 },
        force_stop := false, immediate_stop_initiated := false,
        immediate_stop_incomplete := false },
    _rw :=
      { ramp_state := RAMP_STATE_IDLE, performed_ramp_up_steps := 0,
        pause_ticks_left := 0, curr_ticks := 0 },
    acceleration := 50 }

/-! ### Infrastructure lemmas -/

set_option maxRecDepth 4000 in
/-- The packed log table agrees with the C array literal. -/
theorem logTable_eq_list :
    ∀ i < 256, logTable i = log2_minus_x_plus_one_shifted_by_1.getD i 0 := by
  decide

set_option maxRecDepth 4000 in
/-- The packed antilog table agrees with the C array literal. -/
theorem powTable_eq_list :
    ∀ i < 256, powTable i = x_minus_pow2_of_x_minus_one_shifted_by_1.getD i 0 := by
  decide

/-- The `allRange` is a sound bounded checker: if it returns `true` and the
fuel covers the range, the predicate holds at every point of the range. -/
theorem allRange_true {f : Nat → Bool} :
    ∀ fuel n lo, n ≤ 2 ^ fuel → allRange f fuel lo n = true →
      ∀ i, i < n → f (lo + i) = true := by
  intro fuel
  induction fuel with
  | zero =>
    intro n lo hn h i hi
    match n, hn, hi with
    | 1, _, hi =>
      have : i = 0 := by omega
      subst this
      simpa [allRange] using h
  | succ fuel ih =>
    intro n lo hn h i hi
    match n, hn, h, hi with
    | m + 1, hn, h, hi =>
      rw [allRange, Bool.and_eq_true] at h
      have hpow : (2 : Nat) ^ (fuel + 1) = 2 * 2 ^ fuel := by rw [pow_succ]; ring
      by_cases hcase : i < (m + 1) / 2
      · exact ih ((m + 1) / 2) lo (by omega) h.1 i hcase
      · have := ih ((m + 1) - (m + 1) / 2) (lo + (m + 1) / 2) (by omega) h.2
          (i - (m + 1) / 2) (by omega)
        have harith : lo + (m + 1) / 2 + (i - (m + 1) / 2) = lo + i := by omega
        rwa [harith] at this

/-- The `toInt16` of an in-range pattern is the pattern itself. -/
theorem toInt16_of_lt {p : Nat} (h : p < 0x8000) : toInt16 p = (p : Int) := by
  simp [toInt16, h]

/-- The `wrap16` is the identity on values already in `int16_t` range. -/
theorem wrap16_of_bounds {z : Int} (h1 : -0x8000 ≤ z) (h2 : z < 0x8000) :
    wrap16 z = z := by
  unfold wrap16
  omega

/-- The `pmfl_to_u16` agrees with its pattern version. -/
theorem pmfl_to_u16_pattern {p : Nat} (h : p < 0x10000) :
    pmfl_to_u16 (toInt16 p) = pmfl_to_u16P p := by
  unfold pmfl_to_u16 pmfl_to_u16P toInt16
  split_ifs <;> first | rfl | omega

/-- The `pmfl_to_u32` agrees with its pattern version. -/
theorem pmfl_to_u32_pattern {p : Nat} (h : p < 0x10000) :
    pmfl_to_u32 (toInt16 p) = pmfl_to_u32P p := by
  unfold pmfl_to_u32 pmfl_to_u32P toInt16
  split_ifs <;> first | rfl | omega

set_option maxHeartbeats 0 in
/-- Exhaustive check of `checkSmall` over all octaves `j ≤ 9`, i.e. over
every `x ∈ [1, 0x400)`. -/
theorem checkSmall_all :
    allRange (fun j => allRange (checkSmall j) 17 (2 ^ j) (2 ^ j)) 4 0 10 = true := by
  decide

set_option maxHeartbeats 0 in
/-- Exhaustive check of `checkGran` over all octaves `k ∈ [10, 15]` and
granules `g ∈ [0x200, 0x400)`. -/
theorem checkGran_all :
    allRange (fun t => allRange (checkGran (10 + t)) 9 512 512) 3 0 6 = true := by
  decide

set_option maxHeartbeats 0 in
/-- Exhaustive check of `checkMid` over the octaves `j ∈ {8, 9}`, i.e.
over every `w ∈ [0x100, 0x400)`. -/
theorem checkMid_all :
    allRange (fun t => allRange (checkMid (8 + t)) 10 (2 ^ (8 + t)) (2 ^ (8 + t))) 1 0 2 = true := by
  decide

/-- Pointwise consequence of `checkSmall_all`. -/
theorem checkSmall_spec {j x : Nat} (hj : j ≤ 9) (h1 : 2 ^ j ≤ x)
    (h2 : x < 2 ^ (j + 1)) : checkSmall j x = true := by
  have h := allRange_true 4 10 0 (by norm_num) checkSmall_all j (by omega)
  simp only [Nat.zero_add] at h
  have h' := allRange_true 17 (2 ^ j) (2 ^ j)
    (Nat.pow_le_pow_right (by norm_num) (by omega)) h (x - 2 ^ j) (by omega)
  rwa [show 2 ^ j + (x - 2 ^ j) = x by omega] at h'

/-- Pointwise consequence of `checkGran_all`. -/
theorem checkGran_spec {k g : Nat} (hk1 : 10 ≤ k) (hk2 : k ≤ 15)
    (hg1 : 512 ≤ g) (hg2 : g < 1024) : checkGran k g = true := by
  have h := allRange_true 3 6 0 (by norm_num) checkGran_all (k - 10) (by omega)
  simp only [Nat.zero_add] at h
  rw [show 10 + (k - 10) = k by omega] at h
  have h' := allRange_true 9 512 512 (by norm_num) h (g - 512) (by omega)
  rwa [show 512 + (g - 512) = g by omega] at h'

/-- Pointwise consequence of `checkMid_all`. -/
theorem checkMid_spec {j w : Nat} (hj1 : 8 ≤ j) (hj2 : j ≤ 9)
    (hw1 : 2 ^ j ≤ w) (hw2 : w < 2 ^ (j + 1)) : checkMid j w = true := by
  have h := allRange_true 1 2 0 (by norm_num) checkMid_all (j - 8) (by omega)
  simp only [Nat.zero_add] at h
  rw [show 8 + (j - 8) = j by omega] at h
  have h' := allRange_true 10 (2 ^ j) (2 ^ j)
    (Nat.pow_le_pow_right (by norm_num) (by omega)) h (w - 2 ^ j) (by omega)
  rwa [show 2 ^ j + (w - 2 ^ j) = w by omega] at h'

/-- The facts packed into `checkSmall`. -/
theorem checkSmall_unpack {j x : Nat} (hj : j ≤ 9) (h1 : 2 ^ j ≤ x)
    (h2 : x < 2 ^ (j + 1)) :
    pmfl_from16P x ≤ 0x2000 ∧
    Nat.dist (pmfl_to_u16P (pmfl_from16P x)) x ≤ 2 ^ (j - 8) ∧
    Nat.dist (pmfl_to_u32P (pmfl_from16P x)) x ≤ 2 ^ (j - 8) := by
  have h := checkSmall_spec hj h1 h2
  simp only [checkSmall, Bool.and_eq_true, decide_eq_true_eq] at h
  exact ⟨h.1.1, h.1.2, h.2⟩

/-- The facts packed into `checkGran`. -/
theorem checkGran_unpack {k g : Nat} (hk1 : 10 ≤ k) (hk2 : k ≤ 15)
    (hg1 : 512 ≤ g) (hg2 : g < 1024) :
    pmfl_from16tail g k ≤ 0x2000 ∧
    Nat.dist (pmfl_to_u16P (pmfl_from16tail g k)) (g <<< (k - 9)) ≤ 2 ^ (k - 9) + 1 ∧
    Nat.dist (pmfl_to_u32P (pmfl_from16tail g k)) (g <<< (k - 9)) ≤ 2 ^ (k - 9) + 1 ∧
    Nat.dist (pmfl_to_u32P (pmfl_from16tail g k + 0x1000)) (g <<< (k - 1)) ≤ 2 ^ k + 1 ∧
    Nat.dist (pmfl_to_u32P (pmfl_from16tail g k + 0x2000)) (g <<< (k + 7)) ≤ 2 ^ (k + 8) + 1 := by
  have h := checkGran_spec hk1 hk2 hg1 hg2
  simp only [checkGran, Bool.and_eq_true, decide_eq_true_eq] at h
  exact ⟨h.1.1.1.1, h.1.1.1.2, h.1.1.2, h.1.2, h.2⟩

/-- The facts packed into `checkMid`. -/
theorem checkMid_unpack {j w : Nat} (hj1 : 8 ≤ j) (hj2 : j ≤ 9)
    (hw1 : 2 ^ j ≤ w) (hw2 : w < 2 ^ (j + 1)) :
    2 * Nat.dist (pmfl_to_u32P (pmfl_from16P w + 0x1000)) (w <<< 8) + 510 ≤ 3 * 2 ^ j ∧
    2 * Nat.dist (pmfl_to_u32P (pmfl_from16P w + 0x2000)) (w <<< 16) + 131070 ≤ 3 * 2 ^ (j + 8) := by
  have h := checkMid_spec hj1 hj2 hw1 hw2
  simp only [checkMid, Bool.and_eq_true, decide_eq_true_eq] at h
  exact h

set_option maxRecDepth 4000 in
/-- On octave `k ∈ [10, 15]` the `pmfl_from(uint16_t)` branch tree shifts
away exactly the low `k - 9` bits: the result only depends on the 9-bit
granule `x >>> (k - 9)`. -/
theorem pmfl_from16P_granule {k x : Nat} (hk1 : 10 ≤ k) (hk2 : k ≤ 15)
    (h1 : 2 ^ k ≤ x) (h2 : x < 2 ^ (k + 1)) :
    pmfl_from16P x = pmfl_from16tail (x >>> (k - 9)) k := by
  interval_cases k <;>
    (norm_num at h1 h2; unfold pmfl_from16P; split_ifs <;> first | omega | rfl)

/-- The `Nat.log2` brackets its argument between consecutive powers of two. -/
theorem log2_bounds {x : Nat} (h : 1 ≤ x) :
    2 ^ Nat.log2 x ≤ x ∧ x < 2 ^ (Nat.log2 x + 1) := by
  rw [Nat.log2_eq_log_two]
  exact ⟨Nat.pow_log_le_self 2 (by omega), Nat.lt_pow_succ_log_self (by norm_num) x⟩

/-- The `Nat.log2` is determined by a power-of-two bracket. -/
theorem log2_eq_of {k x : Nat} (h1 : 2 ^ k ≤ x) (h2 : x < 2 ^ (k + 1)) :
    Nat.log2 x = k := by
  rw [Nat.log2_eq_log_two]
  exact Nat.log_eq_of_pow_le_of_lt_pow h1 h2

/-- Division window: `x` lies in `[x/d * d, x/d * d + d)`. -/
theorem div_mul_window (x d : Nat) (hd : 0 < d) :
    x / d * d ≤ x ∧ x < x / d * d + d := by
  refine ⟨Nat.div_mul_le_self x d, ?_⟩
  calc x = d * (x / d) + x % d := (Nat.div_add_mod x d).symm
  _ < d * (x / d) + d := Nat.add_lt_add_left (Nat.mod_lt x hd) _
  _ = x / d * d + d := by rw [Nat.mul_comm]

/-- For `x` in octave `k ≥ 9`, dividing by `2^(k-9)` lands in the granule
range `[0x200, 0x400)` and brackets `x` within one granule width. -/
theorem octave_div_bounds {k x : Nat} (h1 : 2 ^ k ≤ x) (h2 : x < 2 ^ (k + 1))
    (hk : 9 ≤ k) :
    512 ≤ x / 2 ^ (k - 9) ∧ x / 2 ^ (k - 9) < 1024 ∧
    x / 2 ^ (k - 9) * 2 ^ (k - 9) ≤ x ∧
    x < x / 2 ^ (k - 9) * 2 ^ (k - 9) + 2 ^ (k - 9) := by
  have hd : 0 < 2 ^ (k - 9) := Nat.pos_pow_of_pos _ (by norm_num)
  have e1 : (512 : Nat) * 2 ^ (k - 9) = 2 ^ k := by
    rw [show (512 : Nat) = 2 ^ 9 by norm_num, ← pow_add]
    congr 1
    omega
  have e2 : (1024 : Nat) * 2 ^ (k - 9) = 2 ^ (k + 1) := by
    rw [show (1024 : Nat) = 2 ^ 10 by norm_num, ← pow_add]
    congr 1
    omega
  obtain ⟨hw1, hw2⟩ := div_mul_window x (2 ^ (k - 9)) hd
  refine ⟨?_, ?_, hw1, hw2⟩
  · rw [Nat.le_div_iff_mul_le hd, e1]
    exact h1
  · rw [Nat.div_lt_iff_lt_mul hd, e2]
    exact h2

/-- The 16-bit round trip: the log pattern is bounded and both integer
conversions land within one ulp. -/
theorem rt16_bound {x : Nat} (hx1 : 1 ≤ x) (hx2 : x < 0x10000) :
    pmfl_from16P x ≤ 0x2000 ∧
    Nat.dist (pmfl_to_u16P (pmfl_from16P x)) x ≤ ulp x ∧
    Nat.dist (pmfl_to_u32P (pmfl_from16P x)) x ≤ ulp x := by
  obtain ⟨hl, hr⟩ := log2_bounds hx1
  by_cases hsmall : x < 1024
  · have hj : Nat.log2 x ≤ 9 := by
      by_contra hcon
      push_neg at hcon
      have h10 : (2 : Nat) ^ 10 ≤ 2 ^ Nat.log2 x := Nat.pow_le_pow_right (by norm_num) (by omega)
      norm_num at h10
      omega
    rw [ulp]
    exact checkSmall_unpack hj hl hr
  · push_neg at hsmall
    have hk1 : 10 ≤ Nat.log2 x := by
      by_contra hcon
      push_neg at hcon
      have h10 : x < 2 ^ 10 := lt_of_lt_of_le hr (Nat.pow_le_pow_right (by norm_num) (by omega))
      norm_num at h10
      omega
    have hk2 : Nat.log2 x ≤ 15 := by
      by_contra hcon
      push_neg at hcon
      have h16 : (2 : Nat) ^ 16 ≤ 2 ^ Nat.log2 x := Nat.pow_le_pow_right (by norm_num) (by omega)
      norm_num at h16
      omega
    obtain ⟨k, hk⟩ : ∃ k, Nat.log2 x = k := ⟨_, rfl⟩
    rw [hk] at hl hr hk1 hk2
    rw [ulp, hk]
    rw [pmfl_from16P_granule hk1 hk2 hl hr]
    simp only [Nat.shiftRight_eq_div_pow]
    obtain ⟨hg1, hg2, hb1, hb2⟩ := octave_div_bounds hl hr (by omega)
    obtain ⟨hq0, hq1, hq2, _, _⟩ := checkGran_unpack hk1 hk2 hg1 hg2
    simp only [Nat.shiftLeft_eq] at hq1 hq2
    have hU : (2 : Nat) ^ (k - 8) = 2 ^ (k - 9) * 2 := by
      rw [← pow_succ]
      congr 1
      omega
    refine ⟨hq0, ?_, ?_⟩ <;>
    · simp only [Nat.dist] at hq1 hq2 ⊢
      generalize hB : x / 2 ^ (k - 9) * 2 ^ (k - 9) = B at hb1 hb2 hq1 hq2
      generalize hD : (2 : Nat) ^ (k - 9) = D at hb2 hq1 hq2 hU
      omega

/-- The 32-bit round trip on `[0x10000, 0x1000000)`: the 8-bit-shifted window
and the `+ 0x1000` exponent bias keep the result within 1.5 ulp. -/
theorem rt32_mid {x : Nat} (h1 : 0x10000 ≤ x) (h2 : x < 0x1000000) :
    pmfl_from16P (x >>> 8) ≤ 0x2000 ∧
    2 * Nat.dist (pmfl_to_u32P (pmfl_from16P (x >>> 8) + 0x1000)) x ≤ 3 * ulp x := by
  simp only [Nat.shiftRight_eq_div_pow]
  norm_num
  obtain ⟨hl, hr⟩ := log2_bounds (show 1 ≤ x / 256 by omega)
  obtain ⟨k, hk⟩ : ∃ k, Nat.log2 (x / 256) = k := ⟨_, rfl⟩
  rw [hk] at hl hr
  have hk1 : 8 ≤ k := by
    by_contra hcon
    push_neg at hcon
    have h9 : x / 256 < 2 ^ 8 := lt_of_lt_of_le hr (Nat.pow_le_pow_right (by norm_num) (by omega))
    norm_num at h9
    omega
  have hk2 : k ≤ 15 := by
    by_contra hcon
    push_neg at hcon
    have h16 : (2 : Nat) ^ 16 ≤ 2 ^ k := Nat.pow_le_pow_right (by norm_num) (by omega)
    norm_num at h16
    omega
  have e1 : (2 : Nat) ^ (k + 8) = 2 ^ k * 256 := by rw [pow_add]; norm_num
  have e2 : (2 : Nat) ^ (k + 8 + 1) = 2 ^ (k + 1) * 256 := by
    rw [show k + 8 + 1 = (k + 1) + 8 by omega, pow_add]
    norm_num
  have hlog : Nat.log2 x = k + 8 := log2_eq_of (by omega) (by omega)
  have hulp : ulp x = 2 ^ k := by
    simp only [ulp, hlog, Nat.add_sub_cancel]
  rw [hulp]
  by_cases hks : k ≤ 9
  · obtain ⟨hm1, _⟩ := checkMid_unpack hk1 hks hl hr
    obtain ⟨hs0, _, _⟩ := checkSmall_unpack hks hl hr
    simp only [Nat.shiftLeft_eq] at hm1
    norm_num at hm1
    refine ⟨hs0, ?_⟩
    simp only [Nat.dist] at hm1 ⊢
    generalize hU : (2 : Nat) ^ k = U at hm1 ⊢
    omega
  · push_neg at hks
    rw [pmfl_from16P_granule (by omega) hk2 hl hr]
    simp only [Nat.shiftRight_eq_div_pow]
    obtain ⟨hg1, hg2, hb1, hb2⟩ := octave_div_bounds hl hr (by omega)
    obtain ⟨hq0, _, _, hq4, _⟩ := checkGran_unpack (by omega) hk2 hg1 hg2
    simp only [Nat.shiftLeft_eq] at hq4
    have epow : (2 : Nat) ^ (k - 1) = 2 ^ (k - 9) * 256 := by
      rw [show k - 1 = k - 9 + 8 from by omega, pow_add,
        show (2 : Nat) ^ 8 = 256 from by norm_num]
    have eB : x / 256 / 2 ^ (k - 9) * 2 ^ (k - 1) =
        x / 256 / 2 ^ (k - 9) * 2 ^ (k - 9) * 256 := by
      rw [epow, mul_assoc]
    rw [eB] at hq4
    have hU : (2 : Nat) ^ (k - 9) * 512 = 2 ^ k := by
      rw [show (512 : Nat) = 2 ^ 9 from by norm_num, ← pow_add,
        show k - 9 + 9 = k from by omega]
    refine ⟨hq0, ?_⟩
    simp only [Nat.dist] at hq4 ⊢
    generalize pmfl_to_u32P (pmfl_from16tail (x / 256 / 2 ^ (k - 9)) k + 0x1000) = V at hq4 ⊢
    generalize x / 256 / 2 ^ (k - 9) * 2 ^ (k - 9) = B at hb1 hb2 hq4
    generalize (2 : Nat) ^ (k - 9) = D at hb2 hU
    generalize (2 : Nat) ^ k = U at hq4 hU ⊢
    omega

/-- The 32-bit round trip on `[0x1000000, 0x100000000)`: the 16-bit-shifted
window and the `+ 0x2000` exponent bias keep the result within 1.5 ulp. -/
theorem rt32_high {x : Nat} (h1 : 0x1000000 ≤ x) (h2 : x < 0x100000000) :
    pmfl_from16P (x >>> 16) ≤ 0x2000 ∧
    2 * Nat.dist (pmfl_to_u32P (pmfl_from16P (x >>> 16) + 0x2000)) x ≤ 3 * ulp x := by
  simp only [Nat.shiftRight_eq_div_pow]
  norm_num
  obtain ⟨hl, hr⟩ := log2_bounds (show 1 ≤ x / 65536 by omega)
  obtain ⟨k, hk⟩ : ∃ k, Nat.log2 (x / 65536) = k := ⟨_, rfl⟩
  rw [hk] at hl hr
  have hk1 : 8 ≤ k := by
    by_contra hcon
    push_neg at hcon
    have h9 : x / 65536 < 2 ^ 8 := lt_of_lt_of_le hr (Nat.pow_le_pow_right (by norm_num) (by omega))
    norm_num at h9
    omega
  have hk2 : k ≤ 15 := by
    by_contra hcon
    push_neg at hcon
    have h16 : (2 : Nat) ^ 16 ≤ 2 ^ k := Nat.pow_le_pow_right (by norm_num) (by omega)
    norm_num at h16
    omega
  have e1 : (2 : Nat) ^ (k + 16) = 2 ^ k * 65536 := by rw [pow_add]; norm_num
  have e2 : (2 : Nat) ^ (k + 16 + 1) = 2 ^ (k + 1) * 65536 := by
    rw [show k + 16 + 1 = (k + 1) + 16 by omega, pow_add]
    norm_num
  have hlog : Nat.log2 x = k + 16 := log2_eq_of (by omega) (by omega)
  have hulp : ulp x = 2 ^ (k + 8) := by
    simp only [ulp, hlog, show k + 16 - 8 = k + 8 from by omega]
  rw [hulp]
  by_cases hks : k ≤ 9
  · obtain ⟨_, hm2⟩ := checkMid_unpack hk1 hks hl hr
    obtain ⟨hs0, _, _⟩ := checkSmall_unpack hks hl hr
    simp only [Nat.shiftLeft_eq] at hm2
    norm_num at hm2
    refine ⟨hs0, ?_⟩
    simp only [Nat.dist] at hm2 ⊢
    generalize hU : (2 : Nat) ^ (k + 8) = U at hm2 ⊢
    omega
  · push_neg at hks
    rw [pmfl_from16P_granule (by omega) hk2 hl hr]
    simp only [Nat.shiftRight_eq_div_pow]
    obtain ⟨hg1, hg2, hb1, hb2⟩ := octave_div_bounds hl hr (by omega)
    obtain ⟨hq0, _, _, _, hq5⟩ := checkGran_unpack (by omega) hk2 hg1 hg2
    simp only [Nat.shiftLeft_eq] at hq5
    have epow : (2 : Nat) ^ (k + 7) = 2 ^ (k - 9) * 65536 := by
      rw [show k + 7 = k - 9 + 16 from by omega, pow_add,
        show (2 : Nat) ^ 16 = 65536 from by norm_num]
    have eB : x / 65536 / 2 ^ (k - 9) * 2 ^ (k + 7) =
        x / 65536 / 2 ^ (k - 9) * 2 ^ (k - 9) * 65536 := by
      rw [epow, mul_assoc]
    rw [eB] at hq5
    have hU : (2 : Nat) ^ (k - 9) * 131072 = 2 ^ (k + 8) := by
      rw [show (131072 : Nat) = 2 ^ 17 from by norm_num, ← pow_add,
        show k - 9 + 17 = k + 8 from by omega]
    refine ⟨hq0, ?_⟩
    simp only [Nat.dist] at hq5 ⊢
    generalize pmfl_to_u32P (pmfl_from16tail (x / 65536 / 2 ^ (k - 9)) k + 0x2000) = V at hq5 ⊢
    generalize x / 65536 / 2 ^ (k - 9) * 2 ^ (k - 9) = B at hb1 hb2 hq5
    generalize (2 : Nat) ^ (k - 9) = D at hb2 hU
    generalize (2 : Nat) ^ (k + 8) = U at hq5 hU ⊢
    omega

/-- The `pmfl_from(uint32_t)` on the low range delegates to the 16-bit path. -/
theorem from32_low_eq {x : Nat} (h2 : x < 0x10000) :
    pmfl_from32 x = toInt16 (pmfl_from16P x) := by
  unfold pmfl_from32
  rw [if_pos h2, Nat.mod_eq_of_lt h2]
  rfl

/-- The `pmfl_from(uint32_t)` on `[0x10000, 0x1000000)`: the 16-bit path on
`x >> 8` plus the `0x1000` exponent bias, with no `int16_t` wrap-around. -/
theorem from32_mid_eq {x : Nat} (h1 : 0x10000 ≤ x) (h2 : x < 0x1000000) :
    pmfl_from16P (x >>> 8) ≤ 0x2000 ∧
    pmfl_from32 x = ((pmfl_from16P (x >>> 8) + 0x1000 : Nat) : Int) := by
  have hb := (rt32_mid h1 h2).1
  refine ⟨hb, ?_⟩
  have hwlt : x >>> 8 < 0x10000 := by
    simp only [Nat.shiftRight_eq_div_pow]
    norm_num
    omega
  unfold pmfl_from32
  rw [if_neg (by omega), if_pos h2, Nat.mod_eq_of_lt hwlt,
    show pmfl_from16 (x >>> 8) = toInt16 (pmfl_from16P (x >>> 8)) from rfl,
    toInt16_of_lt (by omega), wrap16_of_bounds (by omega) (by omega)]
  push_cast
  ring

/-- The `pmfl_from(uint32_t)` on `[0x1000000, 0x100000000)`: the 16-bit path
on `x >> 16` plus the `0x2000` exponent bias, with no `int16_t`
wrap-around. -/
theorem from32_high_eq {x : Nat} (h1 : 0x1000000 ≤ x) (h2 : x < 0x100000000) :
    pmfl_from16P (x >>> 16) ≤ 0x2000 ∧
    pmfl_from32 x = ((pmfl_from16P (x >>> 16) + 0x2000 : Nat) : Int) := by
  have hb := (rt32_high h1 h2).1
  refine ⟨hb, ?_⟩
  have hwlt : x >>> 16 < 0x10000 := by
    simp only [Nat.shiftRight_eq_div_pow]
    norm_num
    omega
  unfold pmfl_from32
  rw [if_neg (by omega), if_neg (by omega), Nat.mod_eq_of_lt hwlt,
    show pmfl_from16 (x >>> 16) = toInt16 (pmfl_from16P (x >>> 16)) from rfl,
    toInt16_of_lt (by omega), wrap16_of_bounds (by omega) (by omega)]
  push_cast
  ring

/-- C2 (amended): for every representable `x ≥ 1`, the 16-bit round trip
`pmfl_to_u16 (pmfl_from x)` is within one ulp of the 8-bit mantissa
window of `x` (relative error at most about 0.4 %); the 32-bit round trip
`pmfl_to_u32 (pmfl_from x)` is within 1.5 ulp.  (The original 1-ulp bound
is refuted for the 32-bit path by `c2_roundtrip_counterexample`.) -/
theorem c2_pmfl_roundtrip_ulp (x : Nat) (hx : 1 ≤ x) :
    (x < 0x10000 → Nat.dist (pmfl_to_u16 (pmfl_from16 x)) x ≤ ulp x) ∧
    (x < 0x100000000 → 2 * Nat.dist (pmfl_to_u32 (pmfl_from32 x)) x ≤ 3 * ulp x) := by
  constructor
  · intro hx16
    obtain ⟨hb, h16, _⟩ := rt16_bound hx hx16
    rw [show pmfl_from16 x = toInt16 (pmfl_from16P x) from rfl,
      pmfl_to_u16_pattern (by omega)]
    exact h16
  · intro hx32
    by_cases hc1 : x < 0x10000
    · obtain ⟨hb, _, h32⟩ := rt16_bound hx hc1
      rw [from32_low_eq hc1, pmfl_to_u32_pattern (by omega)]
      omega
    · push_neg at hc1
      by_cases hc2 : x < 0x1000000
      · obtain ⟨hb, heq⟩ := from32_mid_eq hc1 hc2
        rw [heq, show ((pmfl_from16P (x >>> 8) + 0x1000 : Nat) : Int) =
            toInt16 (pmfl_from16P (x >>> 8) + 0x1000) from (toInt16_of_lt (by omega)).symm,
          pmfl_to_u32_pattern (by omega)]
        exact (rt32_mid hc1 hc2).2
      · push_neg at hc2
        obtain ⟨hb, heq⟩ := from32_high_eq hc2 hx32
        rw [heq, show ((pmfl_from16P (x >>> 16) + 0x2000 : Nat) : Int) =
            toInt16 (pmfl_from16P (x >>> 16) + 0x2000) from (toInt16_of_lt (by omega)).symm,
          pmfl_to_u32_pattern (by omega)]
        exact (rt32_high hc2 hx32).2

/-- C2 counterexample to the claim as stated: at `x = 101119` the 32-bit
round trip returns `100736`, which is `383 > 256 = ulp 101119` away. -/
theorem c2_roundtrip_counterexample :
    1 ≤ 101119 ∧ 101119 < 0x100000000 ∧
    ¬ Nat.dist (pmfl_to_u32 (pmfl_from32 101119)) 101119 ≤ ulp 101119 := by
  refine ⟨by norm_num, by norm_num, ?_⟩
  have hulp : ulp 101119 = 256 := by
    rw [ulp, log2_eq_of (show 2 ^ 16 ≤ 101119 by norm_num) (by norm_num)]
    norm_num
  rw [hulp]
  decide

/-- C2 witness: the bound instantiated at `x = 1000`. -/
theorem c2_pmfl_roundtrip_ulp_witness :
    1 ≤ 1000 ∧
    Nat.dist (pmfl_to_u16 (pmfl_from16 1000)) 1000 ≤ ulp 1000 ∧
    2 * Nat.dist (pmfl_to_u32 (pmfl_from32 1000)) 1000 ≤ 3 * ulp 1000 :=
  ⟨by norm_num, (c2_pmfl_roundtrip_ulp 1000 (by norm_num)).1 (by norm_num),
    (c2_pmfl_roundtrip_ulp 1000 (by norm_num)).2 (by norm_num)⟩

set_option maxRecDepth 4000 in
/-- The 8-bit conversion returns the sentinel pattern exactly at zero
(exhaustive over the `uint8_t` domain). -/
theorem pmfl_from8_sentinel_iff : ∀ x < 256, (pmfl_from8 x = toInt16 0x8000 ↔ x = 0) := by
  decide

/-- C7: `pmfl_from` returns the sentinel bit pattern `0x8000` (the
`int16_t` value `-32768`) exactly for input `0`, on all three input
widths; every `x ≥ 1` maps to an ordinary log value distinct from the
sentinel. -/
theorem c7_pmfl_from_sentinel (x : Nat) (hx : x < 0x100000000) :
    (pmfl_from32 x = toInt16 0x8000 ↔ x = 0) ∧
    (x < 0x10000 → (pmfl_from16 x = toInt16 0x8000 ↔ x = 0)) ∧
    (x < 0x100 → (pmfl_from8 x = toInt16 0x8000 ↔ x = 0)) := by
  have hsent : toInt16 0x8000 = -32768 := by norm_num [toInt16]
  have h16 : ∀ y : Nat, y < 0x10000 → (pmfl_from16 y = toInt16 0x8000 ↔ y = 0) := by
    intro y hy
    by_cases hy0 : y = 0
    · subst hy0
      simp only [iff_true]
      decide
    · have hb := (rt16_bound (by omega) hy).1
      rw [show pmfl_from16 y = toInt16 (pmfl_from16P y) from rfl,
        toInt16_of_lt (by omega), hsent]
      omega
  refine ⟨?_, fun h => h16 x h, fun h => pmfl_from8_sentinel_iff x (by omega)⟩
  by_cases hc1 : x < 0x10000
  · rw [from32_low_eq hc1, show toInt16 (pmfl_from16P x) = pmfl_from16 x from rfl]
    exact h16 x hc1
  · push_neg at hc1
    by_cases hc2 : x < 0x1000000
    · obtain ⟨hb, heq⟩ := from32_mid_eq hc1 hc2
      rw [heq, hsent]
      omega
    · push_neg at hc2
      obtain ⟨hb, heq⟩ := from32_high_eq hc2 hx
      rw [heq, hsent]
      omega

/-- C7 witness: the sentinel equivalence instantiated at `x = 0` and
`x = 21` (all widths). -/
theorem c7_pmfl_from_sentinel_witness :
    (pmfl_from32 0 = toInt16 0x8000 ↔ (0 : Nat) = 0) ∧
    (pmfl_from16 21 = toInt16 0x8000 ↔ (21 : Nat) = 0) ∧
    (pmfl_from8 21 = toInt16 0x8000 ↔ (21 : Nat) = 0) :=
  ⟨(c7_pmfl_from_sentinel 0 (by norm_num)).1,
    (c7_pmfl_from_sentinel 21 (by norm_num)).2.1 (by norm_num),
    (c7_pmfl_from_sentinel 21 (by norm_num)).2.2 (by norm_num)⟩

/-- C4: the conversions back to integers saturate: negative log values
give `0`; `pmfl_to_u16` gives `0xffff` from `0x2000` up, `pmfl_to_u32`
gives `0xffffffff` from `0x4000` up — no wrap-around, no trap. -/
theorem c4_pmfl_to_saturation (x : Int) (h1 : -0x8000 ≤ x) (h2 : x < 0x8000) :
    (x < 0 → pmfl_to_u16 x = 0) ∧
    (0x2000 ≤ x → pmfl_to_u16 x = 0xffff) ∧
    (x < 0 → pmfl_to_u32 x = 0) ∧
    (0x4000 ≤ x → pmfl_to_u32 x = 0xffffffff) := by
  refine ⟨fun h => ?_, fun h => ?_, fun h => ?_, fun h => ?_⟩
  · rw [pmfl_to_u16, if_pos h]
  · rw [pmfl_to_u16, if_neg (by omega), if_pos h]
  · rw [pmfl_to_u32, if_pos h]
  · rw [pmfl_to_u32, if_neg (by omega), if_pos h]

/-- C4 witness: saturation at `x = -5`, `x = 0x2000` and `x = 0x4000`. -/
theorem c4_pmfl_to_saturation_witness :
    pmfl_to_u16 (-5) = 0 ∧ pmfl_to_u16 0x2000 = 0xffff ∧
    pmfl_to_u32 (-5) = 0 ∧ pmfl_to_u32 0x4000 = 0xffffffff :=
  ⟨(c4_pmfl_to_saturation (-5) (by norm_num) (by norm_num)).1 (by norm_num),
    (c4_pmfl_to_saturation 0x2000 (by norm_num) (by norm_num)).2.1 (by norm_num),
    (c4_pmfl_to_saturation (-5) (by norm_num) (by norm_num)).2.2.1 (by norm_num),
    (c4_pmfl_to_saturation 0x4000 (by norm_num) (by norm_num)).2.2.2 (by norm_num)⟩

/-- C6: `pmfl_square x` is `x + x` whenever `-0x4000 < x < 0x4000` (where
doubling cannot overflow the encoding), and saturates to the format's
signed extremes `0x7fff` / `(int16_t)0x8001 = -32767` at the thresholds
`x ≥ 0x4000` / `x ≤ -0x4000` stated by the claim. -/
theorem c6_pmfl_square (x : Int) (h1 : -0x8000 ≤ x) (h2 : x < 0x8000) :
    (0x4000 ≤ x → pmfl_square x = 0x7fff) ∧
    (x ≤ -0x4000 → pmfl_square x = -32767) ∧
    (-0x4000 < x → x < 0x4000 → pmfl_square x = x + x) := by
  refine ⟨fun h => ?_, fun h => ?_, fun ha hb => ?_⟩
  · rw [pmfl_square, if_pos h]
  · rw [pmfl_square, if_neg (by omega), if_pos h]
    norm_num [toInt16]
  · rw [pmfl_square, if_neg (by omega), if_neg (by omega),
      wrap16_of_bounds (by omega) (by omega)]

/-- C6 witness: squaring at `x = 100`, `x = 0x4000` and `x = -0x4000`. -/
theorem c6_pmfl_square_witness :
    pmfl_square 100 = 200 ∧ pmfl_square 0x4000 = 0x7fff ∧
    pmfl_square (-0x4000) = -32767 :=
  ⟨(c6_pmfl_square 100 (by norm_num) (by norm_num)).2.2 (by norm_num) (by norm_num),
    (c6_pmfl_square 0x4000 (by norm_num) (by norm_num)).1 (by norm_num),
    (c6_pmfl_square (-0x4000) (by norm_num) (by norm_num)).2.1 (by norm_num)⟩

/-- C8: in the 16-bit two's-complement encoding, `pmfl_multiply` is
addition, `pmfl_divide` subtraction and `pmfl_reciprocal` negation of the
log values; consequently dividing a product by a factor recovers the
other factor exactly, and `pmfl_reciprocal` is an involution. -/
theorem c8_pmfl_log_arithmetic (a b : Int) (ha1 : -0x8000 ≤ a) (ha2 : a < 0x8000)
    (_hb1 : -0x8000 ≤ b) (_hb2 : b < 0x8000) :
    pmfl_multiply a b = wrap16 (a + b) ∧
    pmfl_divide a b = wrap16 (a - b) ∧
    pmfl_reciprocal a = wrap16 (-a) ∧
    pmfl_divide (pmfl_multiply a b) b = a ∧
    pmfl_reciprocal (pmfl_reciprocal a) = a := by
  refine ⟨rfl, rfl, rfl, ?_, ?_⟩
  · unfold pmfl_divide pmfl_multiply wrap16
    omega
  · unfold pmfl_reciprocal wrap16
    omega

/-- C8 witness: the arithmetic identities at `a = 1234`, `b = -20000`. -/
theorem c8_pmfl_log_arithmetic_witness :
    pmfl_multiply 1234 (-20000) = wrap16 (1234 + -20000) ∧
    pmfl_divide 1234 (-20000) = wrap16 (1234 - -20000) ∧
    pmfl_reciprocal 1234 = wrap16 (-1234) ∧
    pmfl_divide (pmfl_multiply 1234 (-20000)) (-20000) = 1234 ∧
    pmfl_reciprocal (pmfl_reciprocal 1234) = 1234 :=
  c8_pmfl_log_arithmetic 1234 (-20000) (by norm_num) (by norm_num) (by norm_num) (by norm_num)

/-- The `_startMove` with `position_changed = false` never touches the
write-side ramp state (on either the invalid-config or the success
path). -/
theorem startMove_unchanged_rw (g : RampGenerator) (t : Int) :
    (g._startMove t false).1._rw = g._rw := by
  simp only [RampGenerator._startMove]
  split_ifs <;> first | rfl | contradiction

/-- C1: while the generator is running toward a position (active, not in
`keep_running` mode), `moveTo` with the currently projected end position
compares equal and therefore skips `startRampIfNotRunning`: the whole
write-side ramp progress — in particular `performed_ramp_up_steps` — is
left unchanged. -/
theorem c1_moveTo_redundant_keeps_ramp (g : RampGenerator) (pos : Int)
    (qe : queue_end_s) (hact : g.isRampGeneratorActive = true)
    (hkr : g._ro.config.parameters.keep_running = false)
    (hpos : pos = g._ro.config.parameters.target_pos) :
    (g.moveTo pos qe).1._rw = g._rw ∧
    (g.moveTo pos qe).1._rw.performed_ramp_up_steps = g._rw.performed_ramp_up_steps := by
  have hcond : (g.isRampGeneratorActive = true) ∧ ¬g._ro.config.parameters.keep_running = true :=
    ⟨hact, by rw [hkr]; simp⟩
  have hmove : g.moveTo pos qe = g._startMove pos false := by
    unfold RampGenerator.moveTo
    rw [if_pos hcond, hpos]
    simp
  rw [hmove, startMove_unchanged_rw]
  exact ⟨rfl, rfl⟩

/-- C1 witness: the redundant `moveTo` at the sample running state. -/
theorem c1_moveTo_redundant_keeps_ramp_witness :
    (gSampleA.moveTo 5 { pos := 0 }).1._rw = gSampleA._rw ∧
    (gSampleA.moveTo 5 { pos := 0 }).1._rw.performed_ramp_up_steps =
      gSampleA._rw.performed_ramp_up_steps :=
  c1_moveTo_redundant_keeps_ramp gSampleA 5 { pos := 0 } (by decide) (by decide) (by decide)

/-- C3: the apply handshake of `getNextCommand`.  When `apply` is set at
entry, the entire parameter record (as it stood at entry) is copied into
the read-state snapshot before any command computation, and afterwards
`apply`, `any_change` and `recalc_ramp_steps` are all clear on the
parameter record; when `apply` is clear, the read-state configuration and
the parameter record are untouched. -/
theorem c3_getNextCommand_apply_handshake (g : RampGenerator) (qe : queue_end_s) :
    (g._parameters.apply = true →
      (g.getNextCommand qe).1._ro.config.parameters = g._parameters ∧
      (g.getNextCommand qe).1._parameters.apply = false ∧
      (g.getNextCommand qe).1._parameters.any_change = false ∧
      (g.getNextCommand qe).1._parameters.recalc_ramp_steps = false) ∧
    (g._parameters.apply = false →
      (g.getNextCommand qe).1._ro.config = g._ro.config ∧
      (g.getNextCommand qe).1._parameters = g._parameters) := by
  constructor <;> intro h <;>
    simp [RampGenerator.getNextCommand, RampReadState.clearImmediateStop,
      RampReadState.isImmediateStopInitiated, RampReadState.isImmediateStopIncomplete,
      RampConfig.update, RampWriteState.stopRamp, h]

/-- C3 witness: the handshake at the sample states (pending `apply` at
`gSampleA`, no pending `apply` at `gSampleB`). -/
theorem c3_getNextCommand_apply_handshake_witness :
    ((gSampleA.getNextCommand { pos := 0 }).1._ro.config.parameters = gSampleA._parameters ∧
     (gSampleA.getNextCommand { pos := 0 }).1._parameters.apply = false ∧
     (gSampleA.getNextCommand { pos := 0 }).1._parameters.any_change = false ∧
     (gSampleA.getNextCommand { pos := 0 }).1._parameters.recalc_ramp_steps = false) ∧
    ((gSampleB.getNextCommand { pos := 0 }).1._ro.config = gSampleB._ro.config ∧
     (gSampleB.getNextCommand { pos := 0 }).1._parameters = gSampleB._parameters) :=
  ⟨(c3_getNextCommand_apply_handshake gSampleA { pos := 0 }).1 (by decide),
   (c3_getNextCommand_apply_handshake gSampleB { pos := 0 }).2 (by decide)⟩

/-- C5: `setAcceleration` rejects every `accel ≤ 0` with `-1` leaving the
whole generator untouched; every `accel > 0` is stored (the cached member
and the parameter record), the record is marked dirty, and `0` is
returned with everything else unchanged. -/
theorem c5_setAcceleration_validates (g : RampGenerator) (a : Int) :
    (a ≤ 0 → g.setAcceleration a = (g, -1)) ∧
    (0 < a →
      (g.setAcceleration a).2 = 0 ∧
      (g.setAcceleration a).1.acceleration = a.toNat ∧
      (g.setAcceleration a).1._parameters.acceleration = a.toNat ∧
      (g.setAcceleration a).1._parameters.any_change = true ∧
      (g.setAcceleration a).1._parameters.recalc_ramp_steps = true ∧
      (g.setAcceleration a).1._parameters.target_pos = g._parameters.target_pos ∧
      (g.setAcceleration a).1._parameters.keep_running = g._parameters.keep_running ∧
      (g.setAcceleration a).1._parameters.keep_running_count_up =
        g._parameters.keep_running_count_up ∧
      (g.setAcceleration a).1._parameters.apply = g._parameters.apply ∧
      (g.setAcceleration a).1._ro = g._ro ∧
      (g.setAcceleration a).1._rw = g._rw) := by
  constructor <;> intro h
  · simp [RampGenerator.setAcceleration, h]
  · simp [RampGenerator.setAcceleration, RampParameters.setAcceleration,
      show ¬a ≤ 0 by omega]

/-- C5 witness: rejection at `-5`, acceptance at `7`, from the sample
idle state. -/
theorem c5_setAcceleration_validates_witness :
    gSampleB.setAcceleration (-5) = (gSampleB, -1) ∧
    (gSampleB.setAcceleration 7).2 = 0 ∧
    (gSampleB.setAcceleration 7).1.acceleration = (7 : Int).toNat :=
  ⟨(c5_setAcceleration_validates gSampleB (-5)).1 (by norm_num),
   ((c5_setAcceleration_validates gSampleB 7).2 (by norm_num)).1,
   ((c5_setAcceleration_validates gSampleB 7).2 (by norm_num)).2.1⟩

/-- C9: whenever the generator is not active, or `keep_running` is set in
the applied configuration, `advanceTargetPosition` is a no-op on the
whole generator state. -/
theorem c9_advanceTargetPosition_noop (g : RampGenerator) (delta : Int)
    (q : queue_end_s)
    (h : g.isRampGeneratorActive = false ∨ g._ro.config.parameters.keep_running = true) :
    g.advanceTargetPosition delta q = g := by
  unfold RampGenerator.advanceTargetPosition
  rw [if_neg]
  rintro ⟨h1, h2⟩
  rcases h with h | h
  · rw [h] at h1
    simp at h1
  · exact h2 h

/-- C9 witness: the no-op at the idle `keep_running` sample state. -/
theorem c9_advanceTargetPosition_noop_witness :
    gSampleB.advanceTargetPosition 10 { pos := 0 } = gSampleB :=
  c9_advanceTargetPosition_noop gSampleB 10 { pos := 0 } (Or.inl (by decide))

/-- C10: `getCurrentAcceleration` returns `0` in the idle and cruising
states, the stored acceleration as a positive value when accelerating
count-up or decelerating count-down, and its negation when decelerating
count-up or accelerating count-down. -/
theorem c10_getCurrentAcceleration_sign (g : RampGenerator)
    (ha1 : 1 ≤ g.acceleration) (ha2 : g.acceleration ≤ 0x7fffffff) :
    ((g._rw.ramp_state = RAMP_STATE_IDLE ∨
      g._rw.ramp_state = RAMP_STATE_COAST ||| RAMP_DIRECTION_COUNT_UP ∨
      g._rw.ramp_state = RAMP_STATE_COAST ||| RAMP_DIRECTION_COUNT_DOWN) →
      g.getCurrentAcceleration = 0) ∧
    ((g._rw.ramp_state = RAMP_STATE_ACCELERATING_FLAG ||| RAMP_DIRECTION_COUNT_UP ∨
      g._rw.ramp_state = RAMP_STATE_DECELERATING_FLAG ||| RAMP_DIRECTION_COUNT_DOWN) →
      g.getCurrentAcceleration = (g.acceleration : Int)) ∧
    ((g._rw.ramp_state = RAMP_STATE_DECELERATING_FLAG ||| RAMP_DIRECTION_COUNT_UP ∨
      g._rw.ramp_state = RAMP_STATE_ACCELERATING_FLAG ||| RAMP_DIRECTION_COUNT_DOWN) →
      g.getCurrentAcceleration = -(g.acceleration : Int)) := by
  have hmod : g.acceleration % 0x100000000 = g.acceleration :=
    Nat.mod_eq_of_lt (by omega)
  refine ⟨?_, ?_, ?_⟩
  · rintro (h | h | h) <;>
    · simp only [RampGenerator.getCurrentAcceleration, RampWriteState.rampState, h]
      rw [if_neg (by decide), if_neg (by decide)]
  · rintro (h | h) <;>
    · simp only [RampGenerator.getCurrentAcceleration, RampWriteState.rampState, h]
      rw [if_pos (by decide), toInt32, hmod, if_pos (by omega)]
  · rintro (h | h) <;>
    · simp only [RampGenerator.getCurrentAcceleration, RampWriteState.rampState, h]
      rw [if_neg (by decide), if_pos (by decide), toInt32, hmod]
      rw [if_neg (by omega)]
      have h32 : ((0x100000000 - g.acceleration) % 0x100000000) = 0x100000000 - g.acceleration :=
        Nat.mod_eq_of_lt (by omega)
      rw [h32]
      omega

/-- C10 witness: the positive branch at the accelerating count-up sample
state. -/
theorem c10_getCurrentAcceleration_sign_witness :
    gSampleA.getCurrentAcceleration = ((1000 : Nat) : Int) :=
  (c10_getCurrentAcceleration_sign gSampleA (by decide) (by decide)).2.1 (Or.inl (by decide))
